import Mathlib

/-!
Shallow embedding of the core of `model.py` (multi-modal 3D shifted-window
attention backbone with an attention-gated deformable convolution), together
with theorems settling the specification claims.

Tensors are embedded as index functions (e.g. a `(B, D, H, W, C)` tensor is a
function `ℕ → ℕ → ℕ → ℕ → ℕ → α`); floating-point values are idealised as `ℚ`;
machine integer tensors as `ℤ`.  Each definition is transcribed from the
corresponding function of `model.py`; the line numbers are noted in comments.
-/

set_option autoImplicit false

namespace Segmentation

/-! ### Window geometry (`model.py` lines 215-249) -/

/-- Transcription of `window_partition(x, window_size)` (`model.py` lines 215-222):
`x.view(B, D/wd, wd, H/wh, wh, W/ww, ww, C).permute(0,1,3,5,2,4,6,7)
  .view(-1, wd*wh*ww, C)`.
The output index `(win, n, c)` decomposes mixed-radix into
`win = ((b*(D/wd) + id)*(H/wh) + ih)*(W/ww) + iw` and
`n = (jd*wh + jh)*ww + jw`, reading `x` at `(b, id*wd+jd, ih*wh+jh, iw*ww+jw, c)`. -/
def window_partition {α : Type} (wd wh ww D H W : ℕ)
    (x : ℕ → ℕ → ℕ → ℕ → ℕ → α) : ℕ → ℕ → ℕ → α :=
  fun win n c =>
    let nD := D / wd
    let nH := H / wh
    let nW := W / ww
    let b := win / (nD * nH * nW)
    let idd := win / (nH * nW) % nD
    let ih := win / nW % nH
    let iw := win % nW
    let jd := n / (wh * ww)
    let jh := n / ww % wh
    let jw := n % ww
    x b (idd * wd + jd) (ih * wh + jh) (iw * ww + jw) c

/-- Transcription of `window_reverse(windows, window_size, B, D, H, W)` (`model.py` lines 225-230):
`windows.view(B, D/wd, H/wh, W/ww, wd, wh, ww, -1).permute(0,1,4,2,5,3,6,7)
  .view(B, D, H, W, -1)`. -/
def window_reverse {α : Type} (wd wh ww D H W : ℕ)
    (windows : ℕ → ℕ → ℕ → α) : ℕ → ℕ → ℕ → ℕ → ℕ → α :=
  fun b d h w c =>
    windows (((b * (D / wd) + d / wd) * (H / wh) + h / wh) * (W / ww) + w / ww)
      (((d % wd) * wh + h % wh) * ww + w % ww) c

/-- Per-axis effective window size of `get_window_size` (`model.py` lines 233-249):
`use_window_size[i] = x_size[i] if x_size[i] <= window_size[i] else window_size[i]`. -/
def getWindowSizeAxis (xSize wSize : ℕ) : ℕ :=
  if xSize ≤ wSize then xSize else wSize

/-- Per-axis effective shift size of `get_window_size` (`model.py` lines 233-249):
`use_shift_size[i] = 0 if x_size[i] <= window_size[i] else shift_size[i]`. -/
def getShiftSizeAxis (xSize wSize sSize : ℕ) : ℕ :=
  if xSize ≤ wSize then 0 else sSize

/-- Transcription of `get_window_size(x_size, window_size, shift_size)` (`model.py` lines 233-249)
for 3-axis inputs with `shift_size` provided (the only way the model calls it):
the loop over `range(len(x_size))` rewrites each axis independently. -/
def get_window_size (xSize wSize sSize : ℕ × ℕ × ℕ) : (ℕ × ℕ × ℕ) × (ℕ × ℕ × ℕ) :=
  ((getWindowSizeAxis xSize.1 wSize.1,
    getWindowSizeAxis xSize.2.1 wSize.2.1,
    getWindowSizeAxis xSize.2.2 wSize.2.2),
   (getShiftSizeAxis xSize.1 wSize.1 sSize.1,
    getShiftSizeAxis xSize.2.1 wSize.2.1 sSize.2.1,
    getShiftSizeAxis xSize.2.2 wSize.2.2 sSize.2.2))

/-! ### Claim C7: per-axis behaviour of `get_window_size` -/

/-- C7: `get_window_size` treats the 3 axes independently: if `extent[i] ≤ window[i]`
the effective window is `extent[i]` and the effective shift `0`, otherwise both keep
their configured values; the effective window never exceeds the extent on any axis. -/
theorem get_window_size_per_axis (x1 x2 x3 w1 w2 w3 s1 s2 s3 : ℕ) :
    (get_window_size (x1, x2, x3) (w1, w2, w3) (s1, s2, s3) =
      ((if x1 ≤ w1 then x1 else w1, if x2 ≤ w2 then x2 else w2,
        if x3 ≤ w3 then x3 else w3),
       (if x1 ≤ w1 then 0 else s1, if x2 ≤ w2 then 0 else s2,
        if x3 ≤ w3 then 0 else s3))) ∧
    (get_window_size (x1, x2, x3) (w1, w2, w3) (s1, s2, s3)).1.1 ≤ x1 ∧
    (get_window_size (x1, x2, x3) (w1, w2, w3) (s1, s2, s3)).1.2.1 ≤ x2 ∧
    (get_window_size (x1, x2, x3) (w1, w2, w3) (s1, s2, s3)).1.2.2 ≤ x3 := by
  refine ⟨rfl, ?_, ?_, ?_⟩ <;>
    simp only [get_window_size, getWindowSizeAxis] <;>
    split <;> omega

/-! ### Claim C1: `window_reverse` inverts `window_partition` -/

lemma split_div {m : ℕ} (a b : ℕ) (hm : 0 < m) (hb : b < m) : (a * m + b) / m = a := by
  rw [Nat.mul_comm, Nat.mul_add_div hm, Nat.div_eq_of_lt hb, Nat.add_zero]

lemma split_mod {m : ℕ} (a b : ℕ) (hb : b < m) : (a * m + b) % m = b := by
  rw [Nat.mul_comm, Nat.mul_add_mod]; exact Nat.mod_eq_of_lt hb

lemma pair_lt {nH nW : ℕ} {qh qw : ℕ} (h2 : qh < nH) (h3 : qw < nW) :
    qh * nW + qw < nH * nW := by
  calc qh * nW + qw < qh * nW + nW := by omega
    _ = (qh + 1) * nW := by ring
    _ ≤ nH * nW := Nat.mul_le_mul_right _ h2

lemma triple_lt {nD nH nW : ℕ} {qd qh qw : ℕ}
    (h1 : qd < nD) (h2 : qh < nH) (h3 : qw < nW) :
    qd * (nH * nW) + qh * nW + qw < nD * (nH * nW) := by
  calc qd * (nH * nW) + qh * nW + qw
      < qd * (nH * nW) + nH * nW := by
        have := pair_lt h2 h3; omega
    _ = (qd + 1) * (nH * nW) := by ring
    _ ≤ nD * (nH * nW) := Nat.mul_le_mul_right _ h1

/-- C1: for a `(B, D, H, W, C)` tensor with `D, H, W` exact multiples of the
window size `(wd, wh, ww)`, `window_reverse (window_partition x) = x` at every
in-range index: the partition/reverse pair is a pure reshaping round-trip. -/
theorem window_reverse_window_partition {α : Type}
    (wd wh ww D H W : ℕ) (x : ℕ → ℕ → ℕ → ℕ → ℕ → α)
    (hwd : 0 < wd) (hwh : 0 < wh) (hww : 0 < ww)
    (hD : wd ∣ D) (hH : wh ∣ H) (hW : ww ∣ W)
    (b d h w c : ℕ) (hd : d < D) (hh : h < H) (hw : w < W) :
    window_reverse wd wh ww D H W
      (window_partition wd wh ww D H W x) b d h w c = x b d h w c := by
  obtain ⟨tD, rfl⟩ := hD
  obtain ⟨tH, rfl⟩ := hH
  obtain ⟨tW, rfl⟩ := hW
  have hnD : (wd * tD) / wd = tD := Nat.mul_div_cancel_left tD hwd
  have hnH : (wh * tH) / wh = tH := Nat.mul_div_cancel_left tH hwh
  have hnW : (ww * tW) / ww = tW := Nat.mul_div_cancel_left tW hww
  have hqd : d / wd < tD := Nat.div_lt_of_lt_mul hd
  have hqh : h / wh < tH := Nat.div_lt_of_lt_mul hh
  have hqw : w / ww < tW := Nat.div_lt_of_lt_mul hw
  have hrd : d % wd < wd := Nat.mod_lt _ hwd
  have hrh : h % wh < wh := Nat.mod_lt _ hwh
  have hrw : w % ww < ww := Nat.mod_lt _ hww
  have htD : 0 < tD := Nat.lt_of_le_of_lt (Nat.zero_le _) hqd
  have htH : 0 < tH := Nat.lt_of_le_of_lt (Nat.zero_le _) hqh
  have htW : 0 < tW := Nat.lt_of_le_of_lt (Nat.zero_le _) hqw
  simp only [window_reverse, window_partition, hnD, hnH, hnW]
  -- decompose the flattened window index `win` and in-window index `n`
  have hwin : ((b * tD + d / wd) * tH + h / wh) * tW + w / ww =
      b * (tD * (tH * tW)) + ((d / wd) * (tH * tW) + ((h / wh) * tW + w / ww)) := by
    ring
  have hwin2 : ((b * tD + d / wd) * tH + h / wh) * tW + w / ww =
      (b * tD + d / wd) * (tH * tW) + ((h / wh) * tW + w / ww) := by
    ring
  have hn5 : ((d % wd) * wh + h % wh) * ww + w % ww =
      (d % wd) * (wh * ww) + ((h % wh) * ww + w % ww) := by
    ring
  have e1 : (((b * tD + d / wd) * tH + h / wh) * tW + w / ww) / (tD * tH * tW) = b := by
    rw [hwin, Nat.mul_assoc]
    exact split_div _ _ (by positivity) (by have := triple_lt hqd hqh hqw; omega)
  have e2 : (((b * tD + d / wd) * tH + h / wh) * tW + w / ww) / (tH * tW) % tD
      = d / wd := by
    rw [hwin2, split_div _ _ (by positivity) (pair_lt hqh hqw)]
    exact split_mod _ _ hqd
  have e3 : (((b * tD + d / wd) * tH + h / wh) * tW + w / ww) / tW % tH = h / wh := by
    rw [split_div _ _ htW hqw]
    exact split_mod _ _ hqh
  have e4 : (((b * tD + d / wd) * tH + h / wh) * tW + w / ww) % tW = w / ww :=
    split_mod _ _ hqw
  have e5 : (((d % wd) * wh + h % wh) * ww + w % ww) / (wh * ww) = d % wd := by
    rw [hn5]
    exact split_div _ _ (by positivity) (pair_lt hrh hrw)
  have e6 : (((d % wd) * wh + h % wh) * ww + w % ww) / ww % wh = h % wh := by
    rw [split_div _ _ hww hrw]
    exact split_mod _ _ hrh
  have e7 : (((d % wd) * wh + h % wh) * ww + w % ww) % ww = w % ww :=
    split_mod _ _ hrw
  rw [e1, e2, e3, e4, e5, e6, e7, Nat.div_add_mod' d wd, Nat.div_add_mod' h wh,
    Nat.div_add_mod' w ww]

/-- C1 witness: the round-trip theorem applied at a concrete tensor and index. -/
theorem window_reverse_window_partition_witness :
    (0 < 2 ∧ (2 : ℕ) ∣ 4 ∧ (4 : ℕ) < 6) ∧
    window_reverse 2 1 3 4 2 6
      (window_partition 2 1 3 4 2 6
        (fun b d h w c => ((b + 2 * d + 3 * h + 5 * w + 7 * c : ℕ) : ℚ)))
      1 3 1 4 2 =
      ((1 + 2 * 3 + 3 * 1 + 5 * 4 + 7 * 2 : ℕ) : ℚ) :=
  ⟨⟨by decide, by decide, by decide⟩,
   window_reverse_window_partition 2 1 3 4 2 6
     (fun b d h w c => ((b + 2 * d + 3 * h + 5 * w + 7 * c : ℕ) : ℚ))
     (by decide) (by decide) (by decide) (by decide) (by decide) (by decide)
     1 3 1 4 2 (by decide) (by decide) (by decide)⟩

/-! ### Claim C8: the relative position index table
(`SelfWindowAttention3D.__init__`, `model.py` lines 340-354, and identically
`CrossWindowAttention3D.__init__`, lines 266-280) -/

/-- Depth coordinate of flattened intra-window position `n`: `coords_flatten`
comes from `torch.meshgrid(arange wd, arange wh, arange ww)` flattened, so
position `n = (cd * wh + ch) * ww + cw`. -/
def windowCoordD (wh ww n : ℕ) : ℕ := n / (wh * ww)

/-- Height coordinate of flattened intra-window position `n`. -/
def windowCoordH (wh ww n : ℕ) : ℕ := n / ww % wh

/-- Width coordinate of flattened intra-window position `n`. -/
def windowCoordW (ww n : ℕ) : ℕ := n % ww

/-- Entry `relative_position_index[i, j]` (`model.py` lines 340-354): pairwise
coordinate differences `coords_flatten[:, i] - coords_flatten[:, j]`, shifted by
`window_size - 1` per axis, mixed with strides `(2*wh - 1) * (2*ww - 1)` and
`(2*ww - 1)`, then summed over the 3 axes. -/
def relative_position_index (wd wh ww i j : ℕ) : ℤ :=
  ((windowCoordD wh ww i : ℤ) - windowCoordD wh ww j + ((wd : ℤ) - 1)) *
      ((2 * (wh : ℤ) - 1) * (2 * (ww : ℤ) - 1)) +
    ((windowCoordH wh ww i : ℤ) - windowCoordH wh ww j + ((wh : ℤ) - 1)) *
      (2 * (ww : ℤ) - 1) +
    ((windowCoordW ww i : ℤ) - windowCoordW ww j + ((ww : ℤ) - 1))

/-- C8: for positive window sizes, every entry of the square
`(wd*wh*ww) × (wd*wh*ww)` relative position index table lies in
`[0, (2*wd-1)*(2*wh-1)*(2*ww-1))`. -/
theorem relative_position_index_bounds (wd wh ww i j : ℕ)
    (hwd : 0 < wd) (hwh : 0 < wh) (hww : 0 < ww)
    (hi : i < wd * wh * ww) (hj : j < wd * wh * ww) :
    0 ≤ relative_position_index wd wh ww i j ∧
      relative_position_index wd wh ww i j <
        (2 * (wd : ℤ) - 1) * (2 * (wh : ℤ) - 1) * (2 * (ww : ℤ) - 1) := by
  have hdi : windowCoordD wh ww i < wd := by
    apply Nat.div_lt_of_lt_mul
    calc i < wd * wh * ww := hi
      _ = wh * ww * wd := by ring
  have hdj : windowCoordD wh ww j < wd := by
    apply Nat.div_lt_of_lt_mul
    calc j < wd * wh * ww := hj
      _ = wh * ww * wd := by ring
  have hhi : windowCoordH wh ww i < wh := Nat.mod_lt _ hwh
  have hhj : windowCoordH wh ww j < wh := Nat.mod_lt _ hwh
  have hwi : windowCoordW ww i < ww := Nat.mod_lt _ hww
  have hwj : windowCoordW ww j < ww := Nat.mod_lt _ hww
  -- pass to the integers
  set a : ℤ := (windowCoordD wh ww i : ℤ) - windowCoordD wh ww j + ((wd : ℤ) - 1)
    with ha_def
  set b : ℤ := (windowCoordH wh ww i : ℤ) - windowCoordH wh ww j + ((wh : ℤ) - 1)
    with hb_def
  set e : ℤ := (windowCoordW ww i : ℤ) - windowCoordW ww j + ((ww : ℤ) - 1)
    with he_def
  have ha0 : 0 ≤ a := by simp only [ha_def]; omega
  have ha1 : a ≤ 2 * (wd : ℤ) - 2 := by simp only [ha_def]; omega
  have hb0 : 0 ≤ b := by simp only [hb_def]; omega
  have hb1 : b ≤ 2 * (wh : ℤ) - 2 := by simp only [hb_def]; omega
  have he0 : 0 ≤ e := by simp only [he_def]; omega
  have he1 : e ≤ 2 * (ww : ℤ) - 2 := by simp only [he_def]; omega
  have hA : (1 : ℤ) ≤ 2 * (wh : ℤ) - 1 := by omega
  have hB : (1 : ℤ) ≤ 2 * (ww : ℤ) - 1 := by omega
  have hAB : (0 : ℤ) ≤ (2 * (wh : ℤ) - 1) * (2 * (ww : ℤ) - 1) := by positivity
  constructor
  · have h1 : 0 ≤ a * ((2 * (wh : ℤ) - 1) * (2 * (ww : ℤ) - 1)) :=
      mul_nonneg ha0 hAB
    have h2 : 0 ≤ b * (2 * (ww : ℤ) - 1) := mul_nonneg hb0 (by omega)
    simp only [relative_position_index, ← ha_def, ← hb_def, ← he_def]
    omega
  · have h1 : a * ((2 * (wh : ℤ) - 1) * (2 * (ww : ℤ) - 1)) ≤
        (2 * (wd : ℤ) - 2) * ((2 * (wh : ℤ) - 1) * (2 * (ww : ℤ) - 1)) :=
      mul_le_mul_of_nonneg_right ha1 hAB
    have h2 : b * (2 * (ww : ℤ) - 1) ≤
        (2 * (wh : ℤ) - 2) * (2 * (ww : ℤ) - 1) :=
      mul_le_mul_of_nonneg_right hb1 (by omega)
    simp only [relative_position_index, ← ha_def, ← hb_def, ← he_def]
    nlinarith [hA, hB, h1, h2, he1]

/-- C8 witness: the bound theorem applied at window `(2, 2, 2)` and a concrete
pair of positions. -/
theorem relative_position_index_bounds_witness :
    (0 < 2 ∧ (7 : ℕ) < 2 * 2 * 2 ∧ (0 : ℕ) < 2 * 2 * 2) ∧
    (0 ≤ relative_position_index 2 2 2 7 0 ∧
      relative_position_index 2 2 2 7 0 <
        (2 * (2 : ℤ) - 1) * (2 * (2 : ℤ) - 1) * (2 * (2 : ℤ) - 1)) :=
  ⟨⟨by decide, by decide, by decide⟩,
   relative_position_index_bounds 2 2 2 7 0 (by decide) (by decide) (by decide)
     (by decide) (by decide)⟩

/-! ### Claim C9: `dim % num_heads ≠ 0` is a first-forward shape error
(`SelfWindowAttention3D.forward`, `model.py` lines 366-370) -/

/-- The `qkv` reshape of `SelfWindowAttention3D.forward` (`model.py` line 369):
`self.qkv(x)` has `B_ * N * (3 * C)` elements and
`.reshape(B_, N, 3, self.num_heads, C // self.num_heads)` requires the target
shape to account for exactly that many elements, else PyTorch raises a shape
error. -/
def selfWindowAttentionQkvReshape (B N C numHeads : ℕ) : Except String Unit :=
  if B * N * (3 * C) = B * N * 3 * numHeads * (C / numHeads) then
    Except.ok ()
  else
    Except.error "cannot reshape qkv tensor"

/-- C9: with a nonempty window batch, the first forward's `qkv` reshape fails
exactly when `dim` (`= C`) is not divisible by `num_heads`. -/
theorem selfWindowAttention_dim_num_heads (B N C numHeads : ℕ)
    (hB : 0 < B) (hN : 0 < N) (hnh : 0 < numHeads) :
    (C % numHeads ≠ 0 →
      selfWindowAttentionQkvReshape B N C numHeads =
        Except.error "cannot reshape qkv tensor") ∧
    (C % numHeads = 0 →
      selfWindowAttentionQkvReshape B N C numHeads = Except.ok ()) := by
  constructor
  · intro hmod
    have hdm := Nat.div_add_mod C numHeads
    have hlt : numHeads * (C / numHeads) < C := by omega
    have hK : 0 < B * N * 3 := by positivity
    have hstrict : B * N * 3 * (numHeads * (C / numHeads)) < B * N * 3 * C :=
      mul_lt_mul_of_pos_left hlt hK
    have hne : ¬(B * N * (3 * C) = B * N * 3 * numHeads * (C / numHeads)) := by
      have hL : B * N * (3 * C) = B * N * 3 * C := by ring
      have hR : B * N * 3 * numHeads * (C / numHeads) =
          B * N * 3 * (numHeads * (C / numHeads)) := by ring
      rw [hL, hR]
      exact (Nat.ne_of_lt hstrict).symm
    simp only [selfWindowAttentionQkvReshape, if_neg hne]
  · intro hmod
    have hmul : numHeads * (C / numHeads) = C :=
      Nat.mul_div_cancel' (Nat.dvd_of_mod_eq_zero hmod)
    have heq : B * N * (3 * C) = B * N * 3 * numHeads * (C / numHeads) := by
      rw [show B * N * 3 * numHeads * (C / numHeads) =
        B * N * 3 * (numHeads * (C / numHeads)) from by ring, hmul]
      ring
    simp only [selfWindowAttentionQkvReshape, if_pos heq]

/-- C9 witness: with `dim = 5`, `num_heads = 2` the reshape errors; with
`dim = 6`, `num_heads = 2` it succeeds. -/
theorem selfWindowAttention_dim_num_heads_witness :
    (0 < 1 ∧ 0 < 8 ∧ 0 < 2) ∧
    selfWindowAttentionQkvReshape 1 8 5 2 =
      Except.error "cannot reshape qkv tensor" ∧
    selfWindowAttentionQkvReshape 1 8 6 2 = Except.ok () :=
  ⟨⟨by decide, by decide, by decide⟩,
   (selfWindowAttention_dim_num_heads 1 8 5 2 (by decide) (by decide)
      (by decide)).1 (by decide),
   (selfWindowAttention_dim_num_heads 1 8 6 2 (by decide) (by decide)
      (by decide)).2 (by decide)⟩

/-! ### Claim C6: cross-modal pairing in `SwinTransformerBlock3D.forward_part1`
(`model.py` lines 518-528; attention modules constructed at lines 455-472) -/

/-- The W-MSA/SW-MSA stage of `SwinTransformerBlock3D.forward_part1`
(`model.py` lines 518-528), with the six attention sub-modules abstracted as
functions on window tensors (`self_attn_*` applied to one stream's windows and
the optional mask; `cross_attn_1` / `cross_attn_2` applied to (query windows,
key/value windows, mask)).  Transcription of
`attn_windows_t1 = self.self_attn_t1(t1_windows, mask=attn_mask) if cross == False
   else self.self_attn_t1(t1_windows, mask=attn_mask)
        + self.cross_attn_1(t1_windows, t1ce_windows, mask=attn_mask)`
and the three analogous lines. -/
def swinAttentionStage
    (selfAttnT1 selfAttnT1ce selfAttnT2 selfAttnFlair :
      (ℕ → ℚ) → Option (ℕ → ℕ → ℕ → ℚ) → (ℕ → ℚ))
    (crossAttn1 crossAttn2 :
      (ℕ → ℚ) → (ℕ → ℚ) → Option (ℕ → ℕ → ℕ → ℚ) → (ℕ → ℚ))
    (cross : Bool) (attnMask : Option (ℕ → ℕ → ℕ → ℚ))
    (t1w t1cew t2w flairw : ℕ → ℚ) :
    (ℕ → ℚ) × (ℕ → ℚ) × (ℕ → ℚ) × (ℕ → ℚ) :=
  (if cross = false then selfAttnT1 t1w attnMask
    else selfAttnT1 t1w attnMask + crossAttn1 t1w t1cew attnMask,
   if cross = false then selfAttnT1ce t1cew attnMask
    else selfAttnT1ce t1cew attnMask + crossAttn1 t1cew t1w attnMask,
   if cross = false then selfAttnT2 t2w attnMask
    else selfAttnT2 t2w attnMask + crossAttn2 t2w flairw attnMask,
   if cross = false then selfAttnFlair flairw attnMask
    else selfAttnFlair flairw attnMask + crossAttn2 flairw t2w attnMask)

/-- C6: with `cross = true` each stream's attention output is its
self-attention plus cross-attention with its designated partner
(T1 ↔ T1ce via the single module `cross_attn_1`, reused for both directions;
T2 ↔ FLAIR via the single module `cross_attn_2`); with `cross = false` each
stream attends only to itself. -/
theorem swinAttentionStage_pairing
    (selfAttnT1 selfAttnT1ce selfAttnT2 selfAttnFlair :
      (ℕ → ℚ) → Option (ℕ → ℕ → ℕ → ℚ) → (ℕ → ℚ))
    (crossAttn1 crossAttn2 :
      (ℕ → ℚ) → (ℕ → ℚ) → Option (ℕ → ℕ → ℕ → ℚ) → (ℕ → ℚ))
    (attnMask : Option (ℕ → ℕ → ℕ → ℚ)) (t1w t1cew t2w flairw : ℕ → ℚ) :
    swinAttentionStage selfAttnT1 selfAttnT1ce selfAttnT2 selfAttnFlair
        crossAttn1 crossAttn2 true attnMask t1w t1cew t2w flairw =
      (selfAttnT1 t1w attnMask + crossAttn1 t1w t1cew attnMask,
       selfAttnT1ce t1cew attnMask + crossAttn1 t1cew t1w attnMask,
       selfAttnT2 t2w attnMask + crossAttn2 t2w flairw attnMask,
       selfAttnFlair flairw attnMask + crossAttn2 flairw t2w attnMask) ∧
    swinAttentionStage selfAttnT1 selfAttnT1ce selfAttnT2 selfAttnFlair
        crossAttn1 crossAttn2 false attnMask t1w t1cew t2w flairw =
      (selfAttnT1 t1w attnMask, selfAttnT1ce t1cew attnMask,
       selfAttnT2 t2w attnMask, selfAttnFlair flairw attnMask) :=
  ⟨rfl, rfl⟩

/-! ### Claim C2: stream threading in `BasicLayer.forward`
(`model.py` lines 728-740)

The block loop reads
`extract_feature, t1_t1ce, t1_t2, t1_flair = blk(t1_t1ce, t1_t2, t1_flair,
attn_mask, cross=...)`: it passes four positional arguments plus the keyword
`cross` to `SwinTransformerBlock3D.forward(self, t1, t1ce, t2, flair,
mask_matrix, cross)`, and never rebinds `t1`, `t1ce`, `t2`, `flair`.  We model
Python's argument binding to show the call itself fails. -/

/-- Binding of a Python call with `nPos` positional arguments and the listed
keyword arguments against a parameter list with no defaults: positional
arguments fill the first parameters, keywords must name an unfilled parameter,
and every parameter must end up bound, otherwise the call raises `TypeError`
(the error value carries the offending parameter names). -/
def pythonCallBind (params : List String) (nPos : ℕ) (keywords : List String) :
    Except String Unit :=
  if params.length < nPos then
    Except.error "too many positional arguments"
  else if keywords.any (fun k => (params.take nPos).contains k) then
    Except.error "got multiple values for argument"
  else if keywords.any (fun k => !(params.contains k)) then
    Except.error "got an unexpected keyword argument"
  else
    match (params.drop nPos).filter (fun p => !(keywords.contains p)) with
    | [] => Except.ok ()
    | missing => Except.error (String.intercalate ", " missing)

/-- Parameters of `SwinTransformerBlock3D.forward` (`model.py` line 565),
`self` excluded. -/
def swinTransformerBlock3DForwardParams : List String :=
  ["t1", "t1ce", "t2", "flair", "mask_matrix", "cross"]

/-- The block invocation of `BasicLayer.forward` (`model.py` line 732):
`blk(t1_t1ce, t1_t2, t1_flair, attn_mask, cross=...)` — four positional
arguments plus the keyword `cross`. -/
def basicLayerBlockCall : Except String Unit :=
  pythonCallBind swinTransformerBlock3DForwardParams 4 ["cross"]

/-- C2 (code bug): the very first block call of `BasicLayer.forward` fails to
bind `mask_matrix` — a `TypeError` — so no block ever runs, let alone threads
the four streams (which the loop never rebinds anyway; the commented-out loop
at `model.py` lines 734-736 is the claimed behaviour). -/
theorem basicLayerBlockCall_missing_mask_matrix :
    basicLayerBlockCall = Except.error "mask_matrix" := by
  rfl

/-! ### Claim C4: the `compute_mask` cache (`model.py` lines 677-690)

`compute_mask` is decorated with a bare `@lru_cache()`, whose CPython default
is `maxsize = 128`: a bounded least-recently-used cache, not an unbounded
memoization table. -/

/-- One call through `functools.lru_cache(maxsize)`: the state is the list of
`(key, value)` entries, most recently used first.  On a hit the cached value is
returned without invoking the builder and the entry moves to the front; on a
miss the builder runs once and the new entry is inserted in front, evicting the
least-recently-used entry beyond `maxsize`.  The third component reports
whether the builder ran. -/
def lruGet {κ μ : Type} [DecidableEq κ] (maxsize : ℕ) (builder : κ → μ)
    (state : List (κ × μ)) (k : κ) : μ × List (κ × μ) × Bool :=
  match state.find? (fun e => decide (e.1 = k)) with
  | some e => (e.2, (k, e.2) :: state.filter (fun e2 => !(decide (e2.1 = k))), false)
  | none => (builder k, ((k, builder k) :: state).take maxsize, true)

/-- Folding a sequence of calls through the LRU cache, returning the final
cache state. -/
def lruRunState {κ μ : Type} [DecidableEq κ] (maxsize : ℕ) (builder : κ → μ)
    (calls : List κ) (init : List (κ × μ)) : List (κ × μ) :=
  calls.foldl (fun st k => (lruGet maxsize builder st k).2.1) init

set_option maxRecDepth 100000 in
/-- C4 counterexample: with the CPython default `maxsize = 128`, calling the
cached builder on key `0`, then on 128 distinct other keys, then on key `0`
again REBUILDS the value for the already-seen key `0` (the builder-ran flag of
the final call is `true`): retention is not unbounded and an already-seen key
is not always served from the cache. -/
theorem lru_cache_eviction_counterexample :
    (lruGet 128 (fun n => n)
        (lruRunState 128 (fun n => n)
          (0 :: (List.range 128).map (· + 1)) ([] : List (ℕ × ℕ))) 0).2.2
      = true := by
  rfl

/-- C4 (amended): per-call contract of the bounded LRU cache: a call whose key
is resident returns the cached value without running the builder; a call with a
non-resident key runs the builder exactly once and inserts the result in front,
keeping at most `maxsize` entries. -/
theorem lruGet_memoization {κ μ : Type} [DecidableEq κ] (maxsize : ℕ)
    (builder : κ → μ) (state : List (κ × μ)) (k : κ) :
    (∀ v, state.find? (fun e => decide (e.1 = k)) = some (k, v) →
      lruGet maxsize builder state k =
        (v, (k, v) :: state.filter (fun e2 => !(decide (e2.1 = k))), false)) ∧
    (state.find? (fun e => decide (e.1 = k)) = none →
      lruGet maxsize builder state k =
        (builder k, ((k, builder k) :: state).take maxsize, true)) := by
  constructor
  · intro v h
    simp only [lruGet, h]
  · intro h
    simp only [lruGet, h]

/-- C4 amended-claim witness: the per-call contract at a concrete cache state:
key `2` is resident (served without rebuild), key `3` is not (built and
inserted). -/
theorem lruGet_memoization_witness :
    (([((1 : ℕ), (10 : ℕ)), (2, 20)].find?
        (fun e => decide (e.1 = 2)) = some (2, 20)) ∧
     ([((1 : ℕ), (10 : ℕ)), (2, 20)].find?
        (fun e => decide (e.1 = 3)) = none)) ∧
    lruGet 128 (fun n => n * 100) [((1 : ℕ), (10 : ℕ)), (2, 20)] 2 =
      (20, [(2, 20), (1, 10)], false) ∧
    lruGet 128 (fun n => n * 100) [((1 : ℕ), (10 : ℕ)), (2, 20)] 3 =
      (300, [(3, 300), (1, 10), (2, 20)], true) := by
  refine ⟨⟨by decide, by decide⟩, ?_, ?_⟩
  · have h := (lruGet_memoization 128 (fun n => n * 100)
      [((1 : ℕ), (10 : ℕ)), (2, 20)] 2).1 20 (by decide)
    rw [h]; rfl
  · have h := (lruGet_memoization 128 (fun n => n * 100)
      [((1 : ℕ), (10 : ℕ)), (2, 20)] 3).2 (by decide)
    rw [h]; rfl

/-! ### Claim C5: shape, entries and symmetry of the attention mask
(`compute_mask`, `model.py` lines 677-690) -/

/-- The `k`-th of the three Python slices
`slice(-window), slice(-window, -shift), slice(-shift, None)` used by
`compute_mask` on an axis of length `L`, as a normalized `(start, stop)` index
pair (negative indices add `L`; `-0` is plain `0`; results clamp into
`[0, L]`, which truncated `ℕ` subtraction provides). -/
def axisSlice (L ws ss k : ℕ) : ℕ × ℕ :=
  if k = 0 then (0, if ws = 0 then 0 else L - ws)
  else if k = 1 then
    (if ws = 0 then 0 else L - ws, if ss = 0 then 0 else L - ss)
  else (if ss = 0 then 0 else L - ss, L)

/-- Membership of coordinate `c` in the `k`-th slice of an axis. -/
def inSlice (L ws ss k c : ℕ) : Bool :=
  decide ((axisSlice L ws ss k).1 ≤ c ∧ c < (axisSlice L ws ss k).2)

/-- The 27 region triples of `compute_mask`'s nested loop, in iteration order
(`d` outermost, `w` innermost). -/
def regionTriples : List (ℕ × ℕ × ℕ) :=
  (List.range 3).flatMap fun kd =>
    (List.range 3).flatMap fun kh =>
      (List.range 3).map fun kw => (kd, kh, kw)

/-- Label `img_mask[0, d, h, w, 0]` after the nested loop of `compute_mask`
(`model.py` lines 679-685): the tensor starts at zero, each region triple
writes the running counter `cnt` into its slice product, later writes win. -/
def imgMaskLabel (D H W wd wh ww sd sh sw : ℕ) (d h w : ℕ) : ℕ :=
  (regionTriples.foldl
    (fun (acc : ℕ × ℕ) t =>
      (acc.1 + 1,
       if inSlice D wd sd t.1 d && inSlice H wh sh t.2.1 h &&
           inSlice W ww sw t.2.2 w then acc.1 else acc.2))
    (0, 0)).2

/-- Transcription of `mask_windows = window_partition(img_mask, window_size).squeeze(-1)`
(`model.py` lines 686-687), for the `(1, D, H, W, 1)` labelled volume. -/
def computeMaskWindows (D H W wd wh ww sd sh sw : ℕ) : ℕ → ℕ → ℕ :=
  fun win n =>
    window_partition wd wh ww D H W
      (fun _ d h w _ => imgMaskLabel D H W wd wh ww sd sh sw d h w) win n 0

/-- Transcription of `compute_mask(D, H, W, window_size, shift_size, device)`
(`model.py` lines 677-690): the attention mask, indexed by
window `< (D/wd)*(H/wh)*(W/ww)` and a pair of in-window positions
`< wd*wh*ww` (the shape of the returned tensor);
`attn_mask = mask_windows.unsqueeze(1) - mask_windows.unsqueeze(2)` puts
`mask_windows[win, j] - mask_windows[win, i]` at `[win, i, j]`, then
`masked_fill` maps nonzero differences to `-100.0` and zero to `0.0`. -/
def compute_mask (D H W wd wh ww sd sh sw : ℕ) :
    Fin ((D / wd) * ((H / wh) * (W / ww))) → Fin (wd * wh * ww) →
      Fin (wd * wh * ww) → ℚ :=
  fun win i j =>
    let diff : ℤ :=
      (computeMaskWindows D H W wd wh ww sd sh sw win.val j.val : ℤ) -
        (computeMaskWindows D H W wd wh ww sd sh sw win.val i.val : ℤ)
    if diff ≠ 0 then -100 else 0

/-- C5: every entry of the attention mask (a
`(num_windows, window_volume, window_volume)`-indexed family by the type of
`compute_mask`) is `0` or `-100`, and the mask equals its transpose in the last
two indices. -/
theorem compute_mask_entries_and_symmetric (D H W wd wh ww sd sh sw : ℕ)
    (win : Fin ((D / wd) * ((H / wh) * (W / ww))))
    (i j : Fin (wd * wh * ww)) :
    (compute_mask D H W wd wh ww sd sh sw win i j = 0 ∨
      compute_mask D H W wd wh ww sd sh sw win i j = -100) ∧
    compute_mask D H W wd wh ww sd sh sw win i j =
      compute_mask D H W wd wh ww sd sh sw win j i := by
  constructor
  · simp only [compute_mask]
    split
    · exact Or.inr rfl
    · exact Or.inl rfl
  · have hiff :
        ((computeMaskWindows D H W wd wh ww sd sh sw win.val j.val : ℤ) -
            (computeMaskWindows D H W wd wh ww sd sh sw win.val i.val : ℤ) ≠ 0) ↔
        ((computeMaskWindows D H W wd wh ww sd sh sw win.val i.val : ℤ) -
            (computeMaskWindows D H W wd wh ww sd sh sw win.val j.val : ℤ) ≠ 0) := by
      omega
    simp only [compute_mask, hiff]

/-! ### `AttDeformConv3d` (`model.py` lines 908-1114)

The forward pass is embedded per output voxel, with the offset field an
explicit argument (the deformable branch computes it from convolutions and a
sigmoid gate; the regular branch substitutes zeros, lines 942-944) and
`stride = 1` (the layer's default; `p[:, :, ::1, ::1, ::1]` is the identity).
Axis naming follows the code: the padded input has shape
`(b, c, h, w, d) = (b, c, H+2*pd, W+2*pd, D+2*pd)`. -/

/-- Model of `torch.clamp` on integer (`.long()`) coordinates. -/
def clampI (z lo hi : ℤ) : ℤ := max lo (min z hi)

/-- Model of `torch.clamp` on float coordinates. -/
def clampQ (z lo hi : ℚ) : ℚ := max lo (min z hi)

/-- Low end of the kernel-tap template `range(-(k-1)//2, (k-1)//2 + 1)`
(`_get_p_n`, `model.py` lines 1050-1063); Python floor division gives
`-(k-1)//2 = -(k//2)`. -/
def tapLo (k : ℕ) : ℤ := -((k / 2 : ℕ) : ℤ)

/-- The `h`-axis kernel-tap template at flattened tap `t` (`p_n_x` of the `'ij'`
meshgrid, flattened row-major so `t = (a*k + b)*k + c`). -/
def tapX (k t : ℕ) : ℤ := tapLo k + ((t / (k * k) : ℕ) : ℤ)

/-- The `w`-axis kernel-tap template at flattened tap `t` (`p_n_y`). -/
def tapY (k t : ℕ) : ℤ := tapLo k + ((t / k % k : ℕ) : ℤ)

/-- The `d`-axis kernel-tap template at flattened tap `t` (`p_n_z`). -/
def tapZ (k t : ℕ) : ℤ := tapLo k + ((t % k : ℕ) : ℤ)

/-- Transcription of `self.zero_padding = nn.ConstantPad3d(padding, 0)` (`model.py` lines
920, 950-951) applied to a channel-indexed volume of extent `(H, W, D)`:
coordinates live in the padded index space, value `0` outside the original
extent. -/
def zeroPad3d (pd H W D : ℕ) (x : ℕ → ℤ → ℤ → ℤ → ℚ) : ℕ → ℤ → ℤ → ℤ → ℚ :=
  fun c i j l =>
    if 0 ≤ i - (pd : ℤ) ∧ i - (pd : ℤ) < (H : ℤ) ∧
        0 ≤ j - (pd : ℤ) ∧ j - (pd : ℤ) < (W : ℤ) ∧
        0 ≤ l - (pd : ℤ) ∧ l - (pd : ℤ) < (D : ℤ) then
      x c (i - pd) (j - pd) (l - pd)
    else 0

/-- Transcription of `self.conv_se` (`model.py` lines 916, 937): a bias-free `1×1×1` convolution
reducing `inChannels` to the squeezed channel count. -/
def conv_se (Wse : ℕ → ℕ → ℚ) (inChannels : ℕ) (x : ℕ → ℤ → ℤ → ℤ → ℚ) :
    ℕ → ℤ → ℤ → ℤ → ℚ :=
  fun cOut i j l => ∑ c ∈ Finset.range inChannels, Wse cOut c * x c i j l

/-- The `h`-axis sampling coordinate `p = p_0 + p_n + offset` (`_get_p`,
`model.py` lines 1076-1085; `_get_p_0` uses `range(1, h+1)`, so output voxel
`i` has base coordinate `i + 1`). -/
def sampleX (k : ℕ) (offX : ℕ → ℕ → ℕ → ℕ → ℚ) (i j l t : ℕ) : ℚ :=
  ((i : ℚ) + 1) + (tapX k t : ℚ) + offX i j l t

/-- The `w`-axis sampling coordinate. -/
def sampleY (k : ℕ) (offY : ℕ → ℕ → ℕ → ℕ → ℚ) (i j l t : ℕ) : ℚ :=
  ((j : ℚ) + 1) + (tapY k t : ℚ) + offY i j l t

/-- The `d`-axis sampling coordinate. -/
def sampleZ (k : ℕ) (offZ : ℕ → ℕ → ℕ → ℕ → ℚ) (i j l t : ℕ) : ℚ :=
  ((l : ℚ) + 1) + (tapZ k t : ℚ) + offZ i j l t

/-- Per-axis smaller corner `q_sss`: `clamp(p.floor(), 0, size - 1).long()`
(`model.py` lines 960-969). -/
def qSmall (size : ℤ) (ρ : ℚ) : ℤ := clampI ⌊ρ⌋ 0 (size - 1)

/-- Per-axis larger corner `q_lll`: `clamp(p.floor() + 1, 0, size - 1).long()`
(`model.py` lines 962, 970-974). -/
def qLarge (size : ℤ) (ρ : ℚ) : ℤ := clampI (⌊ρ⌋ + 1) 0 (size - 1)

/-- The boundary mask `p.lt(padding) + p.gt(size - 1 - padding)` cast to float
(`model.py` lines 983-988). -/
def boundaryMask (pd size : ℤ) (ρ : ℚ) : ℚ :=
  if ρ < (pd : ℚ) ∨ ((size : ℚ) - 1 - (pd : ℚ)) < ρ then 1 else 0

/-- The blended and clamped sampling coordinate:
`floor_p = p - (p - p.floor())`, `p = p*(1-mask) + floor_p*mask`, then
`clamp(p, 0, size-1)` (`model.py` lines 989-996). -/
def pClamped (pd size : ℤ) (ρ : ℚ) : ℚ :=
  clampQ (ρ * (1 - boundaryMask pd size ρ) +
      (ρ - (ρ - (⌊ρ⌋ : ℚ))) * boundaryMask pd size ρ)
    0 ((size : ℚ) - 1)

/-- Per-axis trilinear factor for a smaller corner: `1 + (q - p)`
(`model.py` lines 999-1022). -/
def gSmall (pd size : ℤ) (ρ : ℚ) : ℚ :=
  1 + ((qSmall size ρ : ℚ) - pClamped pd size ρ)

/-- Per-axis trilinear factor for a larger corner: `1 - (q - p)`. -/
def gLarge (pd size : ℤ) (ρ : ℚ) : ℚ :=
  1 - ((qLarge size ρ : ℚ) - pClamped pd size ρ)

/-- The flattened gather index of `_get_x_q` (`model.py` line 1100):
`q_x * padded_w * padded_d + q_y * padded_d + q_z`. -/
def getXqIndex (pw pdd : ℤ) (qx qy qz : ℤ) : ℤ :=
  qx * pw * pdd + qy * pdd + qz

/-- Reading the flattened `(b, c, h*w*d)` view of the padded volume at a linear
index (row-major over `(h, w, d)`), as `x.gather` does
(`model.py` lines 1096-1104). -/
def flatRead (pw pdd : ℤ) (xp : ℤ → ℤ → ℤ → ℚ) (n : ℤ) : ℚ :=
  xp (n / (pw * pdd)) (n / pdd % pw) (n % pdd)

/-- Transcription of `_get_x_q` at one corner coordinate triple (`model.py` lines 1087-1106). -/
def getXq (pw pdd : ℤ) (xp : ℤ → ℤ → ℤ → ℚ) (qx qy qz : ℤ) : ℚ :=
  flatRead pw pdd xp (getXqIndex pw pdd qx qy qz)

/-- The 8-corner trilinear gather `x_offset` at one voxel/tap
(`model.py` lines 998-1043), in the code's term order
(sss, lll, ssl, sls, sll, lss, lsl, lls). -/
def trilinearSample (pd ph pw pdd : ℤ) (xp : ℤ → ℤ → ℤ → ℚ)
    (ρx ρy ρz : ℚ) : ℚ :=
  gSmall pd ph ρx * gSmall pd pw ρy * gSmall pd pdd ρz *
      getXq pw pdd xp (qSmall ph ρx) (qSmall pw ρy) (qSmall pdd ρz) +
    gLarge pd ph ρx * gLarge pd pw ρy * gLarge pd pdd ρz *
      getXq pw pdd xp (qLarge ph ρx) (qLarge pw ρy) (qLarge pdd ρz) +
    gSmall pd ph ρx * gSmall pd pw ρy * gLarge pd pdd ρz *
      getXq pw pdd xp (qSmall ph ρx) (qSmall pw ρy) (qLarge pdd ρz) +
    gSmall pd ph ρx * gLarge pd pw ρy * gSmall pd pdd ρz *
      getXq pw pdd xp (qSmall ph ρx) (qLarge pw ρy) (qSmall pdd ρz) +
    gSmall pd ph ρx * gLarge pd pw ρy * gLarge pd pdd ρz *
      getXq pw pdd xp (qSmall ph ρx) (qLarge pw ρy) (qLarge pdd ρz) +
    gLarge pd ph ρx * gSmall pd pw ρy * gSmall pd pdd ρz *
      getXq pw pdd xp (qLarge ph ρx) (qSmall pw ρy) (qSmall pdd ρz) +
    gLarge pd ph ρx * gSmall pd pw ρy * gLarge pd pdd ρz *
      getXq pw pdd xp (qLarge ph ρx) (qSmall pw ρy) (qLarge pdd ρz) +
    gLarge pd ph ρx * gLarge pd pw ρy * gSmall pd pdd ρz *
      getXq pw pdd xp (qLarge ph ρx) (qLarge pw ρy) (qSmall pdd ρz)

/-- The regular-mode offset field:
`offset = torch.zeros(b, 3 * kernel_size ** 3, h, w, d)`
(`model.py` lines 942-944). -/
def regularOffset : ℕ → ℕ → ℕ → ℕ → ℚ := fun _ _ _ _ => 0

/-- Transcription of `AttDeformConv3d.forward` (`model.py` lines 935-1048) with the offset field
as an explicit argument, at output channel `o` and voxel `(i, j, l)`:
channel squeeze (`conv_se`), zero padding, sampling coordinates
`p = p_0 + p_n + offset`, 8-corner trilinear gather, then the `1×1×1`
projection `conv_kernel` over the `(channel, tap)`-major `_reshape_x_offset`
layout (`model.py` lines 1045-1046, 1108-1114). -/
def attDeformConv3dForward (k pd inCh seCh H W D : ℕ)
    (Wse : ℕ → ℕ → ℚ) (Wk : ℕ → ℕ → ℕ → ℚ)
    (offX offY offZ : ℕ → ℕ → ℕ → ℕ → ℚ)
    (x : ℕ → ℤ → ℤ → ℤ → ℚ) (o i j l : ℕ) : ℚ :=
  let xp := zeroPad3d pd H W D (conv_se Wse inCh x)
  ∑ c ∈ Finset.range seCh, ∑ t ∈ Finset.range (k * k * k),
    Wk o c t *
      trilinearSample (pd : ℤ) ((H : ℤ) + 2 * pd) ((W : ℤ) + 2 * pd)
        ((D : ℤ) + 2 * pd) (xp c)
        (sampleX k offX i j l t) (sampleY k offY i j l t)
        (sampleZ k offZ i j l t)

/-- Transcription of `AttDeformConv3d.forward` in `"regular"` mode: the offset field is the
all-zero tensor of the else-branch (`model.py` lines 939-944). -/
def attDeformConv3dForwardRegular (k pd inCh seCh H W D : ℕ)
    (Wse : ℕ → ℕ → ℚ) (Wk : ℕ → ℕ → ℕ → ℚ)
    (x : ℕ → ℤ → ℤ → ℤ → ℚ) (o i j l : ℕ) : ℚ :=
  attDeformConv3dForward k pd inCh seCh H W D Wse Wk
    regularOffset regularOffset regularOffset x o i j l

/-- Modelled from the spec's words, as the reference side of refinement claim
C3: a "standard (dense, zero-padded) kernel_size³ convolution" given by the
un-offset kernel-tap gather of the zero-padded channel-squeezed input followed
by the same learned `1×1×1` projection weights. -/
def standardConvSpec (k pd inCh seCh H W D : ℕ)
    (Wse : ℕ → ℕ → ℚ) (Wk : ℕ → ℕ → ℕ → ℚ)
    (x : ℕ → ℤ → ℤ → ℤ → ℚ) (o i j l : ℕ) : ℚ :=
  let xp := zeroPad3d pd H W D (conv_se Wse inCh x)
  ∑ c ∈ Finset.range seCh, ∑ t ∈ Finset.range (k * k * k),
    Wk o c t *
      xp c ((i : ℤ) + 1 + tapX k t) ((j : ℤ) + 1 + tapY k t)
        ((l : ℤ) + 1 + tapZ k t)

/-! #### Corner and clamp lemmas -/

lemma qSmall_intCast (s z : ℤ) : qSmall s (z : ℚ) = clampI z 0 (s - 1) := by
  unfold qSmall
  rw [Int.floor_intCast]

lemma qLarge_intCast (s z : ℤ) : qLarge s (z : ℚ) = clampI (z + 1) 0 (s - 1) := by
  unfold qLarge
  rw [Int.floor_intCast]

lemma pClamped_intCast (pd s z : ℤ) :
    pClamped pd s (z : ℚ) = ((clampI z 0 (s - 1) : ℤ) : ℚ) := by
  unfold pClamped
  have hblend : (z : ℚ) * (1 - boundaryMask pd s (z : ℚ)) +
      ((z : ℚ) - ((z : ℚ) - (⌊(z : ℚ)⌋ : ℚ))) * boundaryMask pd s (z : ℚ) =
      (z : ℚ) := by
    rw [Int.floor_intCast]
    ring
  rw [hblend]
  unfold clampQ clampI
  push_cast
  rfl

lemma qSmall_bounds (s : ℤ) (ρ : ℚ) (hs : 0 < s) :
    0 ≤ qSmall s ρ ∧ qSmall s ρ ≤ s - 1 := by
  unfold qSmall clampI
  omega

lemma qLarge_bounds (s : ℤ) (ρ : ℚ) (hs : 0 < s) :
    0 ≤ qLarge s ρ ∧ qLarge s ρ ≤ s - 1 := by
  unfold qLarge clampI
  omega

/-- Unflattening the gather index: for per-axis in-range corner coordinates the
flat read of `_get_x_q` is the padded volume at that coordinate triple. -/
lemma getXq_eq (pw pdd : ℤ) (hpw : 0 < pw) (hpdd : 0 < pdd)
    (xp : ℤ → ℤ → ℤ → ℚ) (qx qy qz : ℤ) (hx0 : 0 ≤ qx)
    (hy0 : 0 ≤ qy) (hy1 : qy < pw) (hz0 : 0 ≤ qz) (hz1 : qz < pdd) :
    getXq pw pdd xp qx qy qz = xp qx qy qz := by
  unfold getXq flatRead getXqIndex
  have hP : 0 < pw * pdd := mul_pos hpw hpdd
  have hrem : 0 ≤ qy * pdd + qz ∧ qy * pdd + qz < pw * pdd := by
    constructor
    · have := mul_nonneg hy0 (le_of_lt hpdd)
      linarith
    · have h1 : qy * pdd ≤ (pw - 1) * pdd :=
        mul_le_mul_of_nonneg_right (by omega) (le_of_lt hpdd)
      have h2 : (pw - 1) * pdd = pw * pdd - pdd := by ring
      linarith
  have e1 : (qx * pw * pdd + qy * pdd + qz) / (pw * pdd) = qx := by
    have hform : qx * pw * pdd + qy * pdd + qz =
        (qy * pdd + qz) + qx * (pw * pdd) := by ring
    rw [hform, Int.add_mul_ediv_right _ _ (ne_of_gt hP),
      Int.ediv_eq_zero_of_lt hrem.1 hrem.2, zero_add]
  have e2 : (qx * pw * pdd + qy * pdd + qz) / pdd % pw = qy := by
    have hform : qx * pw * pdd + qy * pdd + qz =
        qz + (qy + qx * pw) * pdd := by ring
    rw [hform, Int.add_mul_ediv_right _ _ (ne_of_gt hpdd),
      Int.ediv_eq_zero_of_lt hz0 hz1, zero_add]
    have hform2 : qy + qx * pw = qy + pw * qx := by ring
    rw [hform2, Int.add_mul_emod_self_left, Int.emod_eq_of_lt hy0 hy1]
  have e3 : (qx * pw * pdd + qy * pdd + qz) % pdd = qz := by
    have hform : qx * pw * pdd + qy * pdd + qz =
        qz + (qx * pw + qy) * pdd := by ring
    rw [hform, Int.add_mul_emod_self, Int.emod_eq_of_lt hz0 hz1]
  rw [e1, e2, e3]

lemma zeroPad3d_zero_x (pd H W D : ℕ) (x : ℕ → ℤ → ℤ → ℤ → ℚ) (c : ℕ)
    (i j l : ℤ) (h : i < (pd : ℤ) ∨ (H : ℤ) + pd ≤ i) :
    zeroPad3d pd H W D x c i j l = 0 := by
  unfold zeroPad3d
  rw [if_neg]
  omega

lemma zeroPad3d_zero_y (pd H W D : ℕ) (x : ℕ → ℤ → ℤ → ℤ → ℚ) (c : ℕ)
    (i j l : ℤ) (h : j < (pd : ℤ) ∨ (W : ℤ) + pd ≤ j) :
    zeroPad3d pd H W D x c i j l = 0 := by
  unfold zeroPad3d
  rw [if_neg]
  omega

lemma zeroPad3d_zero_z (pd H W D : ℕ) (x : ℕ → ℤ → ℤ → ℤ → ℚ) (c : ℕ)
    (i j l : ℤ) (h : l < (pd : ℤ) ∨ (D : ℤ) + pd ≤ l) :
    zeroPad3d pd H W D x c i j l = 0 := by
  unfold zeroPad3d
  rw [if_neg]
  omega

/-- Per-axis collapse of the sampling machinery at an integer coordinate `z`
on an axis of padded size `E + 2*pd`: either `z` is interior (the small corner
is `z` with weight `1`, the large corner has weight `0`), or the clamp
saturates (both corners coincide at a zero-padding slot, both weights are `1`,
and `z` itself lies outside the real extent). -/
lemma axis_regular (pd E z : ℤ) (hpd : 0 < pd) (hE : 0 ≤ E) :
    (qSmall (E + 2 * pd) (z : ℚ) = z ∧
      qLarge (E + 2 * pd) (z : ℚ) = z + 1 ∧
      gSmall pd (E + 2 * pd) (z : ℚ) = 1 ∧
      gLarge pd (E + 2 * pd) (z : ℚ) = 0) ∨
    (qSmall (E + 2 * pd) (z : ℚ) = qLarge (E + 2 * pd) (z : ℚ) ∧
      gSmall pd (E + 2 * pd) (z : ℚ) = 1 ∧
      gLarge pd (E + 2 * pd) (z : ℚ) = 1 ∧
      (qSmall (E + 2 * pd) (z : ℚ) < pd ∨
        E + pd ≤ qSmall (E + 2 * pd) (z : ℚ)) ∧
      (z < pd ∨ E + pd ≤ z)) := by
  have hq := qSmall_intCast (E + 2 * pd) z
  have hql := qLarge_intCast (E + 2 * pd) z
  have hpc := pClamped_intCast pd (E + 2 * pd) z
  have hgs : gSmall pd (E + 2 * pd) (z : ℚ) = 1 := by
    unfold gSmall
    rw [hq, hpc]
    ring
  by_cases h1 : z < 0
  · -- low saturation: both corners clamp to 0, a zero-padding slot
    have e1 : clampI z 0 (E + 2 * pd - 1) = 0 := by unfold clampI; omega
    have e2 : clampI (z + 1) 0 (E + 2 * pd - 1) = 0 := by unfold clampI; omega
    refine Or.inr ⟨by rw [hq, hql, e1, e2], hgs, ?_, ?_, Or.inl (by omega)⟩
    · unfold gLarge
      rw [hql, hpc, e1, e2]
      norm_num
    · rw [hq, e1]
      exact Or.inl hpd
  · by_cases h2 : E + 2 * pd - 1 ≤ z
    · -- high saturation: both corners clamp to the last (zero-padding) slot
      have e1 : clampI z 0 (E + 2 * pd - 1) = E + 2 * pd - 1 := by
        unfold clampI; omega
      have e2 : clampI (z + 1) 0 (E + 2 * pd - 1) = E + 2 * pd - 1 := by
        unfold clampI; omega
      refine Or.inr ⟨by rw [hq, hql, e1, e2], hgs, ?_, ?_, Or.inr (by omega)⟩
      · unfold gLarge
        rw [hql, hpc, e1, e2]
        norm_num
      · rw [hq, e1]
        exact Or.inr (by omega)
    · -- interior
      have e1 : clampI z 0 (E + 2 * pd - 1) = z := by unfold clampI; omega
      have e2 : clampI (z + 1) 0 (E + 2 * pd - 1) = z + 1 := by
        unfold clampI; omega
      refine Or.inl ⟨by rw [hq, e1], by rw [hql, e2], hgs, ?_⟩
      unfold gLarge
      rw [hql, hpc, e1, e2]
      push_cast
      ring

/-- The trilinear gather of `AttDeformConv3d.forward` collapses at integer
sampling coordinates: for positive padding it reads the zero-padded volume
directly (out-of-range coordinates land on zero-padding slots). -/
lemma trilinearSample_intCast (pd H W D : ℕ) (hpd : 0 < pd)
    (x : ℕ → ℤ → ℤ → ℤ → ℚ) (c : ℕ) (zx zy zz : ℤ) :
    trilinearSample (pd : ℤ) ((H : ℤ) + 2 * pd) ((W : ℤ) + 2 * pd)
        ((D : ℤ) + 2 * pd) (zeroPad3d pd H W D x c)
        (zx : ℚ) (zy : ℚ) (zz : ℚ) =
      zeroPad3d pd H W D x c zx zy zz := by
  have hpdZ : (0 : ℤ) < (pd : ℤ) := by exact_mod_cast hpd
  have hsx : (0 : ℤ) < (H : ℤ) + 2 * pd := by positivity
  have hsy : (0 : ℤ) < (W : ℤ) + 2 * pd := by positivity
  have hsz : (0 : ℤ) < (D : ℤ) + 2 * pd := by positivity
  -- in-range bounds for every corner coordinate
  obtain ⟨bxs0, bxs1⟩ := qSmall_bounds _ (zx : ℚ) hsx
  obtain ⟨bxl0, bxl1⟩ := qLarge_bounds _ (zx : ℚ) hsx
  obtain ⟨bys0, bys1⟩ := qSmall_bounds _ (zy : ℚ) hsy
  obtain ⟨byl0, byl1⟩ := qLarge_bounds _ (zy : ℚ) hsy
  obtain ⟨bzs0, bzs1⟩ := qSmall_bounds _ (zz : ℚ) hsz
  obtain ⟨bzl0, bzl1⟩ := qLarge_bounds _ (zz : ℚ) hsz
  unfold trilinearSample
  rw [getXq_eq _ _ hsy hsz _ _ _ _ bxs0 bys0 (by omega) bzs0 (by omega),
    getXq_eq _ _ hsy hsz _ _ _ _ bxl0 byl0 (by omega) bzl0 (by omega),
    getXq_eq _ _ hsy hsz _ _ _ _ bxs0 bys0 (by omega) bzl0 (by omega),
    getXq_eq _ _ hsy hsz _ _ _ _ bxs0 byl0 (by omega) bzs0 (by omega),
    getXq_eq _ _ hsy hsz _ _ _ _ bxs0 byl0 (by omega) bzl0 (by omega),
    getXq_eq _ _ hsy hsz _ _ _ _ bxl0 bys0 (by omega) bzs0 (by omega),
    getXq_eq _ _ hsy hsz _ _ _ _ bxl0 bys0 (by omega) bzl0 (by omega),
    getXq_eq _ _ hsy hsz _ _ _ _ bxl0 byl0 (by omega) bzs0 (by omega)]
  rcases axis_regular pd H zx hpdZ (Int.ofNat_nonneg H) with
    ⟨hqx, hqlx, hgsx, hglx⟩ | ⟨hqeqx, hgsx, hglx, hpadx, houtx⟩
  · rcases axis_regular pd W zy hpdZ (Int.ofNat_nonneg W) with
      ⟨hqy, hqly, hgsy, hgly⟩ | ⟨hqeqy, hgsy, hgly, hpady, houty⟩
    · rcases axis_regular pd D zz hpdZ (Int.ofNat_nonneg D) with
        ⟨hqz, hqlz, hgsz, hglz⟩ | ⟨hqeqz, hgsz, hglz, hpadz, houtz⟩
      · -- all axes interior: only the sss corner survives
        rw [hgsx, hglx, hgsy, hgly, hgsz, hglz, hqx, hqy, hqz]
        ring
      · -- d-axis saturated: every corner has its d-coordinate on a padding slot
        have hz0 : ∀ a b zc, (zc = qSmall ((D : ℤ) + 2 * pd) (zz : ℚ) ∨
            zc = qLarge ((D : ℤ) + 2 * pd) (zz : ℚ)) →
            zeroPad3d pd H W D x c a b zc = 0 := by
          intro a b zc hzc
          apply zeroPad3d_zero_z
          rcases hzc with rfl | rfl
          · exact hpadz
          · rw [← hqeqz]; exact hpadz
        rw [hz0 _ _ _ (Or.inl rfl), hz0 _ _ _ (Or.inr rfl),
          hz0 _ _ _ (Or.inl rfl), hz0 _ _ _ (Or.inr rfl),
          hz0 _ _ _ (Or.inl rfl), hz0 _ _ _ (Or.inr rfl),
          hz0 _ _ _ (Or.inl rfl), hz0 _ _ _ (Or.inr rfl)]
        rw [zeroPad3d_zero_z pd H W D x c _ _ _ houtz]
        ring
    · -- w-axis saturated
      have hy0 : ∀ a zb zc, (zb = qSmall ((W : ℤ) + 2 * pd) (zy : ℚ) ∨
          zb = qLarge ((W : ℤ) + 2 * pd) (zy : ℚ)) →
          zeroPad3d pd H W D x c a zb zc = 0 := by
        intro a zb zc hzb
        apply zeroPad3d_zero_y
        rcases hzb with rfl | rfl
        · exact hpady
        · rw [← hqeqy]; exact hpady
      rw [hy0 _ _ _ (Or.inl rfl), hy0 _ _ _ (Or.inr rfl),
        hy0 _ _ _ (Or.inl rfl), hy0 _ _ _ (Or.inr rfl),
        hy0 _ _ _ (Or.inr rfl), hy0 _ _ _ (Or.inl rfl),
        hy0 _ _ _ (Or.inl rfl), hy0 _ _ _ (Or.inr rfl)]
      rw [zeroPad3d_zero_y pd H W D x c _ _ _ houty]
      ring
  · -- h-axis saturated
    have hx0 : ∀ za zb zc, (za = qSmall ((H : ℤ) + 2 * pd) (zx : ℚ) ∨
        za = qLarge ((H : ℤ) + 2 * pd) (zx : ℚ)) →
        zeroPad3d pd H W D x c za zb zc = 0 := by
      intro za zb zc hza
      apply zeroPad3d_zero_x
      rcases hza with rfl | rfl
      · exact hpadx
      · rw [← hqeqx]; exact hpadx
    rw [hx0 _ _ _ (Or.inl rfl), hx0 _ _ _ (Or.inr rfl),
      hx0 _ _ _ (Or.inl rfl), hx0 _ _ _ (Or.inl rfl),
      hx0 _ _ _ (Or.inl rfl), hx0 _ _ _ (Or.inr rfl),
      hx0 _ _ _ (Or.inr rfl), hx0 _ _ _ (Or.inr rfl)]
    rw [zeroPad3d_zero_x pd H W D x c _ _ _ houtx]
    ring

/-! ### Claim C3: regular mode is a standard convolution -/

/-- C3: in `"regular"` mode the offset field used for sampling is identically
zero, and for positive padding the forward output equals the standard (dense,
zero-padded) `kernel_size³` convolution given by the un-offset kernel-tap
gather followed by the same learned `1×1×1` projection weights, applied after
the channel-squeeze convolution. -/
theorem attDeformConv3d_regular_mode (k pd inCh seCh H W D : ℕ)
    (Wse : ℕ → ℕ → ℚ) (Wk : ℕ → ℕ → ℕ → ℚ) (x : ℕ → ℤ → ℤ → ℤ → ℚ)
    (o i j l : ℕ) (hpd : 0 < pd) :
    (∀ a b c t, regularOffset a b c t = 0) ∧
    attDeformConv3dForwardRegular k pd inCh seCh H W D Wse Wk x o i j l =
      standardConvSpec k pd inCh seCh H W D Wse Wk x o i j l := by
  refine ⟨fun _ _ _ _ => rfl, ?_⟩
  simp only [attDeformConv3dForwardRegular, attDeformConv3dForward,
    standardConvSpec]
  apply Finset.sum_congr rfl
  intro c _
  apply Finset.sum_congr rfl
  intro t _
  congr 1
  have ex : sampleX k regularOffset i j l t =
      (((i : ℤ) + 1 + tapX k t : ℤ) : ℚ) := by
    unfold sampleX regularOffset
    push_cast
    ring
  have ey : sampleY k regularOffset i j l t =
      (((j : ℤ) + 1 + tapY k t : ℤ) : ℚ) := by
    unfold sampleY regularOffset
    push_cast
    ring
  have ez : sampleZ k regularOffset i j l t =
      (((l : ℤ) + 1 + tapZ k t : ℤ) : ℚ) := by
    unfold sampleZ regularOffset
    push_cast
    ring
  rw [ex, ey, ez]
  exact trilinearSample_intCast pd H W D hpd (conv_se Wse inCh x) c _ _ _

/-- C3 witness: the regular-mode equivalence at a concrete configuration
(kernel 1, padding 1, unit weights, constant input). -/
theorem attDeformConv3d_regular_mode_witness :
    0 < 1 ∧
    ((∀ a b c t, regularOffset a b c t = 0) ∧
      attDeformConv3dForwardRegular 1 1 1 1 1 1 1 (fun _ _ => 1)
          (fun _ _ _ => 1) (fun _ _ _ _ => 2) 0 0 0 0 =
        standardConvSpec 1 1 1 1 1 1 1 (fun _ _ => 1) (fun _ _ _ => 1)
          (fun _ _ _ _ => 2) 0 0 0 0) :=
  ⟨Nat.one_pos,
   attDeformConv3d_regular_mode 1 1 1 1 1 1 1 (fun _ _ => 1) (fun _ _ _ => 1)
     (fun _ _ _ _ => 2) 0 0 0 0 Nat.one_pos⟩

/-! ### Claim C10: the deformable gather never reads out of bounds -/

/-- C10: for every sampling coordinate triple (hence for arbitrary learned
offsets), every corner of the 8-corner gather — each coordinate block being a
per-axis clamp of `floor(p)` or `floor(p) + 1` into `[0, axis_size - 1]` —
yields a flattened `_get_x_q` index inside `[0, padded_h * padded_w *
padded_d)`. -/
theorem getXqIndex_in_bounds (ph pw pdd : ℤ) (ρx ρy ρz : ℚ) (qx qy qz : ℤ)
    (hph : 0 < ph) (hpw : 0 < pw) (hpdd : 0 < pdd)
    (hx : qx = qSmall ph ρx ∨ qx = qLarge ph ρx)
    (hy : qy = qSmall pw ρy ∨ qy = qLarge pw ρy)
    (hz : qz = qSmall pdd ρz ∨ qz = qLarge pdd ρz) :
    0 ≤ getXqIndex pw pdd qx qy qz ∧
      getXqIndex pw pdd qx qy qz < ph * pw * pdd := by
  have hxx : 0 ≤ qx ∧ qx ≤ ph - 1 := by
    rcases hx with rfl | rfl
    · exact qSmall_bounds _ _ hph
    · exact qLarge_bounds _ _ hph
  have hyy : 0 ≤ qy ∧ qy ≤ pw - 1 := by
    rcases hy with rfl | rfl
    · exact qSmall_bounds _ _ hpw
    · exact qLarge_bounds _ _ hpw
  have hzz : 0 ≤ qz ∧ qz ≤ pdd - 1 := by
    rcases hz with rfl | rfl
    · exact qSmall_bounds _ _ hpdd
    · exact qLarge_bounds _ _ hpdd
  unfold getXqIndex
  constructor
  · have g1 : 0 ≤ qx * pw * pdd :=
      mul_nonneg (mul_nonneg hxx.1 hpw.le) hpdd.le
    have g2 : 0 ≤ qy * pdd := mul_nonneg hyy.1 hpdd.le
    linarith [hzz.1]
  · have h1 : qx * pw * pdd ≤ (ph - 1) * pw * pdd :=
      mul_le_mul_of_nonneg_right
        (mul_le_mul_of_nonneg_right hxx.2 hpw.le) hpdd.le
    have h2 : qy * pdd ≤ (pw - 1) * pdd :=
      mul_le_mul_of_nonneg_right hyy.2 hpdd.le
    have e1 : (ph - 1) * pw * pdd = ph * pw * pdd - pw * pdd := by ring
    have e2 : (pw - 1) * pdd = pw * pdd - pdd := by ring
    linarith [hzz.2]

/-- C10 witness: in-bounds gather indices at a concrete padded shape and
concrete (fractional, even out-of-range) sampling coordinates. -/
theorem getXqIndex_in_bounds_witness :
    ((0 : ℤ) < 2) ∧
    (0 ≤ getXqIndex 2 2 (qSmall 2 ((7 : ℚ) / 2)) (qLarge 2 ((7 : ℚ) / 2))
        (qSmall 2 (-(3 : ℚ) / 2)) ∧
      getXqIndex 2 2 (qSmall 2 ((7 : ℚ) / 2)) (qLarge 2 ((7 : ℚ) / 2))
        (qSmall 2 (-(3 : ℚ) / 2)) < 2 * 2 * 2) :=
  ⟨by decide,
   getXqIndex_in_bounds 2 2 2 ((7 : ℚ) / 2) ((7 : ℚ) / 2) (-(3 : ℚ) / 2)
     _ _ _ (by decide) (by decide) (by decide)
     (Or.inl rfl) (Or.inr rfl) (Or.inl rfl)⟩

end Segmentation
